import Mathlib

set_option maxRecDepth 100000

/-!
Verification of the `cert cluster` subcommand (src/cmd/cert-cluster.go).

The development shallowly embeds the command's two components:
* the identity classifier (the `for _, v := range args` loop over host
  identifiers, using the Go standard library's `net.ParseIP`, `IP.To4`,
  `IP.To16`, which are embedded here from their Go sources of the
  repository's era), and
* the certificate issuer (`PreRunE` and `RunE`), over an explicit
  environment holding the file system, a clock trace (one entry per
  `time.Now()` call), and the outcome of the randomized RSA key generation.

Machine integers are modelled as `Nat`/`Int` (no overflow is reachable in
the embedded code paths); fallible operations return `Option`.
-/

/-! ## Go `net` package: IP addresses (stdlib, as called by the classifier) -/

/-- A Go `net.IP` value: a byte slice (each entry `< 256`).  A `nil` Go IP
is represented by `none` at use sites (`Option GoIP`). -/
abbrev GoIP := List Nat

/-- The 12-byte prelude `v4InV6Prefix` used for 4-byte addresses stored in
16-byte form. -/
def v4InV6Pfx : GoIP := [0, 0, 0, 0, 0, 0, 0, 0, 0, 0, 0xff, 0xff]

/-- Go `net.IPv4 a b c d`: the 16-byte representation of an IPv4 address. -/
def mkIPv4 (a b c d : Nat) : GoIP := v4InV6Pfx ++ [a, b, c, d]

/-- Go `net.dtoi`: parse a decimal number off the front of the character
list; `none` when there is no digit or the value reaches `0xFFFFFF`
(Go returns `ok = false` in both cases).  The accumulator `n` and digit
count `cnt` start at `0`. -/
def dtoiGo : List Char → Nat → Nat → Option (Nat × List Char)
  | [], n, cnt => if cnt = 0 then none else some (n, [])
  | c :: rest, n, cnt =>
    if '0' ≤ c ∧ c ≤ '9' then
      let n2 := n * 10 + (c.toNat - '0'.toNat)
      if 0xFFFFFF ≤ n2 then none else dtoiGo rest n2 (cnt + 1)
    else if cnt = 0 then none else some (n, c :: rest)

/-- Value of one hexadecimal digit, as accepted by Go `net.xtoi`. -/
def hexVal (c : Char) : Option Nat :=
  if '0' ≤ c ∧ c ≤ '9' then some (c.toNat - '0'.toNat)
  else if 'a' ≤ c ∧ c ≤ 'f' then some (c.toNat - 'a'.toNat + 10)
  else if 'A' ≤ c ∧ c ≤ 'F' then some (c.toNat - 'A'.toNat + 10)
  else none

/-- Go `net.xtoi`: parse a hexadecimal number off the front of the
character list; `none` when there is no hex digit or the value reaches
`0xFFFFFF`. -/
def xtoiGo : List Char → Nat → Nat → Option (Nat × List Char)
  | [], n, cnt => if cnt = 0 then none else some (n, [])
  | c :: rest, n, cnt =>
    match hexVal c with
    | some v =>
      let n2 := n * 16 + v
      if 0xFFFFFF ≤ n2 then none else xtoiGo rest n2 (cnt + 1)
    | none => if cnt = 0 then none else some (n, c :: rest)

/-- One pass of Go `net.parseIPv4`'s field loop: `j` fields remain, `first`
marks the first field (no leading dot expected), `acc` holds the fields
parsed so far. -/
def parseV4Fields : Nat → Bool → List Char → List Nat → Option (List Nat)
  | 0, _, s, acc => if s.isEmpty then some acc else none
  | j + 1, first, s, acc =>
    match s with
    | [] => none
    | _ =>
      let s2? : Option (List Char) :=
        if first then some s
        else
          match s with
          | '.' :: rest => some rest
          | _ => none
      match s2? with
      | none => none
      | some s2 =>
        match dtoiGo s2 0 0 with
        | none => none
        | some (n, rest) =>
          if 0xFF < n then none
          else parseV4Fields j false rest (acc ++ [n])

/-- Go `net.parseIPv4`: dotted-decimal IPv4, returned in 16-byte form via
`net.IPv4`. -/
def parseIPv4 (s : List Char) : Option GoIP :=
  match parseV4Fields 4 true s [] with
  | some [a, b, c, d] => some (mkIPv4 a b c d)
  | _ => none

/-- The hex-group loop of Go `net.parseIPv6`: `bytes` are the address bytes
written so far (Go's index `i` is `bytes.length`), `ell` the ellipsis
position when one was seen.  Returns the bytes written and the ellipsis
position; `none` mirrors every `return nil` inside the loop.  The fuel is
an upper bound on iterations (each iteration writes at least two bytes,
so ten is enough). -/
def parseIPv6Loop : Nat → List Nat → Option Nat → List Char → Option (List Nat × Option Nat)
  | 0, _, _, _ => none
  | fuel + 1, bytes, ell, s =>
    if 16 ≤ bytes.length then
      if s.isEmpty then some (bytes, ell) else none
    else
      match xtoiGo s 0 0 with
      | none => none
      | some (n, rest) =>
        if 0xFFFF < n then none
        else
          match rest with
          | '.' :: _ =>
            if ell.isNone ∧ bytes.length ≠ 12 then none
            else if 16 < bytes.length + 4 then none
            else
              match parseIPv4 s with
              | none => none
              | some ip4 => some (bytes ++ ip4.drop 12, ell)
          | _ =>
            let bytes2 := bytes ++ [n / 256, n % 256]
            match rest with
            | [] => some (bytes2, ell)
            | c :: rest2 =>
              if c ≠ ':' ∨ rest2.isEmpty then none
              else
                match rest2 with
                | ':' :: rest3 =>
                  if ell.isSome then none
                  else if rest3.isEmpty then some (bytes2, some bytes2.length)
                  else parseIPv6Loop fuel bytes2 (some bytes2.length) rest3
                | _ => parseIPv6Loop fuel bytes2 ell rest2

/-- The tail of Go `net.parseIPv6`: expand the ellipsis when fewer than 16
bytes were written, reject an ellipsis in a full address. -/
def finishIPv6 (bytes : List Nat) (ell : Option Nat) : Option GoIP :=
  if bytes.length < 16 then
    match ell with
    | none => none
    | some e => some (bytes.take e ++ List.replicate (16 - bytes.length) 0 ++ bytes.drop e)
  else
    match ell with
    | some _ => none
    | none => some bytes

/-- Go `net.parseIPv6` (zone not allowed, as in `net.ParseIP`): handles a
leading `::`, then runs the group loop. -/
def parseIPv6 (s : List Char) : Option GoIP :=
  match s with
  | ':' :: ':' :: rest =>
    if rest.isEmpty then some (List.replicate 16 0)
    else
      match parseIPv6Loop 10 [] (some 0) rest with
      | none => none
      | some (bytes, ell) => finishIPv6 bytes ell
  | _ =>
    match parseIPv6Loop 10 [] none s with
    | none => none
    | some (bytes, ell) => finishIPv6 bytes ell

/-- The dispatch scan of Go `net.ParseIP`: the first `.` or `:` decides
between the IPv4 and IPv6 grammars; a string with neither is not an IP. -/
def netParseIPScan : List Char → List Char → Option GoIP
  | _, [] => none
  | s, c :: rest =>
    if c = '.' then parseIPv4 s
    else if c = ':' then parseIPv6 s
    else netParseIPScan s rest

/-- Go `net.ParseIP`. -/
def netParseIP (s : String) : Option GoIP :=
  netParseIPScan s.toList s.toList

/-- Go `net.IP.To4` (on a possibly-nil receiver): the 4-byte form of an
IPv4 address, `none` otherwise. -/
def ipTo4 : Option GoIP → Option GoIP
  | none => none
  | some ip =>
    if ip.length = 4 then some ip
    else if ip.length = 16 ∧ ip.take 12 = v4InV6Pfx then some (ip.drop 12)
    else none

/-- Go `net.IP.To16` (on a possibly-nil receiver): the 16-byte form of any
valid IP, `none` otherwise. -/
def ipTo16 : Option GoIP → Option GoIP
  | none => none
  | some ip =>
    if ip.length = 4 then
      match ip with
      | [a, b, c, d] => some (mkIPv4 a b c d)
      | _ => none
    else if ip.length = 16 then some ip
    else none

/-! ## Identity classifier (the `for _, v := range args` loop of `RunE`) -/

/-- One iteration of the classifier loop in `RunE`: `chk := net.ParseIP(v)`,
then the `switch` on `chk.To4()`, `chk.To16()`, with the default appending
`v` to the DNS list. -/
def classifyStep (acc : List String × List GoIP) (v : String) : List String × List GoIP :=
  let chk := netParseIP v
  match ipTo4 chk with
  | some p => (acc.1, acc.2 ++ [p])
  | none =>
    match ipTo16 chk with
    | some p => (acc.1, acc.2 ++ [p])
    | none => (acc.1 ++ [v], acc.2)

/-- The classifier: the whole loop, starting from two empty lists. -/
def classifyHosts (args : List String) : List String × List GoIP :=
  args.foldl classifyStep ([], [])

/-! Spec-side restatement of the partition (from the spec's words, for the
refinement statement of C1). -/

/-- From the spec: the DNS list keeps, in input order, every identifier
with neither a valid 4-byte nor a valid 16-byte parsed form. -/
def dnsOfSpec (args : List String) : List String :=
  args.filter fun v => (ipTo4 (netParseIP v)).isNone && (ipTo16 (netParseIP v)).isNone

/-- From the spec: the IP value an identifier contributes — its 4-byte
form when valid, else its 16-byte form when valid. -/
def ipOfHost (v : String) : Option GoIP :=
  match ipTo4 (netParseIP v) with
  | some p => some p
  | none => ipTo16 (netParseIP v)

/-- From the spec: the IP list collects, in input order, the contributed
IP values. -/
def ipsOfSpec (args : List String) : List GoIP :=
  args.filterMap ipOfHost

/-! ## RSA (crypto/rsa, as used through `x509.CreateCertificate` and
signature checking) -/

/-- Binary modular exponentiation (as Go's `math/big.Exp` computes it),
with explicit fuel; `powMod` supplies enough fuel. -/
def powModF : Nat → Nat → Nat → Nat → Nat
  | 0, _, _, n => 1 % n
  | fuel + 1, b, e, n =>
    if e = 0 then 1 % n
    else if e % 2 = 1 then powModF fuel (b * b % n) (e / 2) n * b % n
    else powModF fuel (b * b % n) (e / 2) n

/-- `b ^ e mod n` by binary exponentiation. -/
def powMod (b e n : Nat) : Nat := powModF (e + 1) b e n

/-- A Go `rsa.PublicKey`: modulus `N` and exponent `E`. -/
structure RSAPub where
  n : Nat
  e : Nat
deriving DecidableEq

/-- A Go `rsa.PrivateKey`: the two primes, the private exponent `D`, and
the embedded public key. -/
structure RSAPriv where
  p : Nat
  q : Nat
  d : Nat
  pub : RSAPub
deriving DecidableEq

/-- Well-formed RSA key material, as produced by `rsa.GenerateKey`: the
primes are distinct, the modulus is their product, and the exponents are
inverse modulo `(p-1)(q-1)`. -/
def RSAKeyValid (k : RSAPriv) : Prop :=
  Nat.Prime k.p ∧ Nat.Prime k.q ∧ k.p ≠ k.q ∧ k.pub.n = k.p * k.q ∧
    0 < k.pub.e ∧ 0 < k.d ∧ k.pub.e * k.d % ((k.p - 1) * (k.q - 1)) = 1

instance (k : RSAPriv) : Decidable (RSAKeyValid k) := by
  unfold RSAKeyValid; infer_instance

/-- Go `rsa.SignPKCS1v15` on the padded digest `m`: fails ("message too
long for RSA public key size") when the modulus cannot hold the padded
digest, else returns `m ^ d mod n`. -/
def rsaSignPKCS1v15 (k : RSAPriv) (m : Nat) : Option Nat :=
  if k.pub.n ≤ m then none else some (powMod m k.d k.pub.n)

/-- Go `rsa.VerifyPKCS1v15` on the padded digest `m`: recompute
`sig ^ e mod n` and compare with the expected encoded digest. -/
def rsaVerifyPKCS1v15 (pub : RSAPub) (m sig : Nat) : Bool :=
  powMod sig pub.e pub.n == m

/-! ## Go `time` package (as used by `RunE`)

A `time.Time` is modelled as nanoseconds since the Unix epoch (`Int`),
with the clock in a fixed UTC zone.  Each `time.Now()` call in the source
reads the next entry of the environment's clock trace. -/

/-- Nanoseconds per day. -/
def nsPerDay : Int := 86400000000000

/-- Proleptic-Gregorian civil date from a day count since 1970-01-01
(the same calendar Go's `time` package computes with). -/
def civilFromDays (z0 : Int) : Int × Int × Int :=
  let z := z0 + 719468
  let era := z.fdiv 146097
  let doe := z - era * 146097
  let yoe := (doe - doe.fdiv 1460 + doe.fdiv 36524 - doe.fdiv 146096).fdiv 365
  let y := yoe + era * 400
  let doy := doe - (365 * yoe + yoe.fdiv 4 - yoe.fdiv 100)
  let mp := (5 * doy + 2).fdiv 153
  let d := doy - (153 * mp + 2).fdiv 5 + 1
  let m := mp + (if mp < 10 then 3 else -9)
  (y + (if m ≤ 2 then 1 else 0), m, d)

/-- Day count since 1970-01-01 of a civil date; a day outside the month's
range rolls over into adjacent months, exactly as Go's date construction
does. -/
def daysFromCivil (y0 m d : Int) : Int :=
  let y := y0 - (if m ≤ 2 then 1 else 0)
  let era := y.fdiv 400
  let yoe := y - era * 400
  let doy := (153 * (m + (if 2 < m then -3 else 9)) + 2).fdiv 5 + d - 1
  let doe := yoe * 365 + yoe.fdiv 4 - yoe.fdiv 100 + doy
  era * 146097 + doe - 719468

/-- Go's `norm` applied to months: bring a (possibly out-of-range) month
into 1..12, carrying into the year. -/
def normMonth (y m : Int) : Int × Int :=
  let m0 := m - 1
  (y + m0.fdiv 12, m0 - 12 * m0.fdiv 12 + 1)

/-- Go `Time.AddDate years months days` on a UTC instant: split into civil
date and nanosecond-of-day, shift the date fields, renormalize. -/
def addDate (t : Int) (years months days : Int) : Int :=
  let day := t.fdiv nsPerDay
  let ns := t - day * nsPerDay
  let ymd := civilFromDays day
  let ym2 := normMonth (ymd.1 + years) (ymd.2.1 + months)
  daysFromCivil ym2.1 ym2.2 (ymd.2.2 + days) * nsPerDay + ns

/-- Go `Time.UnixNano` on our representation. -/
def unixNano (t : Int) : Int := t

/-! ## x509 data model (crypto/x509, as used by `RunE`) -/

/-- The fields of a `pkix.Name` that this command sets. -/
structure PkixName where
  commonName : String
  organization : List String
deriving DecidableEq

/-- `x509.SignatureAlgorithm` values relevant here. -/
inductive SigAlg
  | unknownSigAlg
  | sha512WithRSA
deriving DecidableEq

/-- `x509.PublicKeyAlgorithm` values relevant here. -/
inductive PubKeyAlg
  | unknownPubKeyAlg
  | ecdsaAlg
deriving DecidableEq

/-- `x509.ExtKeyUsage` values relevant here. -/
inductive ExtKeyUsageV
  | serverAuth
  | clientAuth
deriving DecidableEq

/-- Go `x509.KeyUsageDigitalSignature` (1 << 0). -/
def keyUsageDigitalSignature : Nat := 1

/-- Go `x509.KeyUsageContentCommitment` (non-repudiation, 1 << 1). -/
def keyUsageContentCommitment : Nat := 2

/-- Go `x509.KeyUsageKeyEncipherment` (1 << 2). -/
def keyUsageKeyEncipherment : Nat := 4

/-- Go `x509.KeyUsageDataEncipherment` (1 << 3). -/
def keyUsageDataEncipherment : Nat := 8

/-- Go `x509.KeyUsageKeyAgreement` (1 << 4). -/
def keyUsageKeyAgreement : Nat := 16

/-- Go `x509.KeyUsageCertSign` (1 << 5). -/
def keyUsageCertSign : Nat := 32

/-- An `x509.Certificate` value: used both for the unsigned template the
command builds (zero values in the untouched fields) and for parsed or
issued certificates. -/
structure X509Cert where
  subject : PkixName
  issuer : PkixName
  basicConstraintsValid : Bool
  isCA : Bool
  signatureAlgorithm : SigAlg
  publicKeyAlgorithm : PubKeyAlg
  notBefore : Int
  notAfter : Int
  serialNumber : Int
  keyUsage : Nat
  extKeyUsage : List ExtKeyUsageV
  dnsNames : List String
  ipAddresses : List GoIP
  pubKey : RSAPub
  signature : Nat
deriving DecidableEq

/-! ## TBS serialization and digest

`x509.CreateCertificate` serializes the to-be-signed portion of the
certificate (everything but the signature), hashes it with SHA-512 and
signs the PKCS#1-padded `DigestInfo`.  Verification recomputes the same
value from the certificate's TBS bytes.  The digest is modelled as a
concrete deterministic fixed-width function of the TBS fields; the
signature field never enters it. -/

def encStr (s : String) : List Nat := s.length :: s.toList.map Char.toNat

def encStrs (l : List String) : List Nat :=
  l.length :: (l.map encStr).foldr (fun a b => a ++ b) []

def encName (nm : PkixName) : List Nat := encStr nm.commonName ++ encStrs nm.organization

def encInt (i : Int) : List Nat := [i.toNat, (-i).toNat]

def encBool (b : Bool) : List Nat := [if b then 1 else 0]

def encSigAlg : SigAlg → List Nat
  | .unknownSigAlg => [0]
  | .sha512WithRSA => [1]

def encPubKeyAlg : PubKeyAlg → List Nat
  | .unknownPubKeyAlg => [0]
  | .ecdsaAlg => [1]

def encEKU : ExtKeyUsageV → Nat
  | .serverAuth => 1
  | .clientAuth => 2

def encIPs (l : List GoIP) : List Nat :=
  l.length :: (l.map (fun ip => ip.length :: ip)).foldr (fun a b => a ++ b) []

/-- The to-be-signed serialization of a certificate (all fields except the
signature). -/
def tbsBytes (c : X509Cert) : List Nat :=
  encName c.subject ++ encName c.issuer ++ encBool c.basicConstraintsValid ++
    encBool c.isCA ++ encSigAlg c.signatureAlgorithm ++ encPubKeyAlg c.publicKeyAlgorithm ++
    encInt c.notBefore ++ encInt c.notAfter ++ encInt c.serialNumber ++
    [c.keyUsage] ++ c.extKeyUsage.map encEKU ++ encStrs c.dnsNames ++
    encIPs c.ipAddresses ++ [c.pubKey.n, c.pubKey.e]

/-- The padded SHA-512 `DigestInfo` of the TBS bytes, as a number
(deterministic, fixed 16-bit width in this model). -/
def tbsDigest (c : X509Cert) : Nat :=
  (tbsBytes c).foldl (fun a b => (a * 65599 + b + 1) % 4294967296) 5381 % 65536

/-- Go `x509.CreateCertificate(rand, template, parent, pub, priv)`: the
issued certificate takes the template's fields, its issuer is the parent's
subject, it embeds the supplied public key, and its signature is the
parent private key's PKCS#1 v1.5 signature over the TBS digest.  `none`
mirrors the error return (in this model, a signing failure). -/
def issuedCert (tmpl parent : X509Cert) (pub : RSAPub) : X509Cert :=
  { tmpl with issuer := parent.subject, pubKey := pub, signature := 0 }

def createCertificate (tmpl parent : X509Cert) (pub : RSAPub) (priv : RSAPriv) :
    Option X509Cert :=
  match rsaSignPKCS1v15 priv (tbsDigest (issuedCert tmpl parent pub)) with
  | none => none
  | some sig => some { issuedCert tmpl parent pub with signature := sig }

/-- x509 signature verification of `child` against `parent`'s public key
(the cryptographic core of `Certificate.CheckSignatureFrom`): recompute
the digest of `child`'s TBS bytes and verify the signature with the
parent's RSA public key. -/
def checkSignature (parent child : X509Cert) : Bool :=
  rsaVerifyPKCS1v15 parent.pubKey (tbsDigest child) child.signature

/-! ## File contents, PEM and DER codecs -/

/-- File contents: either raw non-PEM text, a PEM envelope around a
payload, or DER payloads (a certificate, a PKCS#1 RSA private key). -/
inductive Bytes
  | raw : String → Bytes
  | pemBlock : String → Bytes → Bytes
  | derCert : X509Cert → Bytes
  | derRSAKey : RSAPriv → Bytes
deriving DecidableEq

/-- Go `pem.Decode`: the first PEM block (type and payload) of the
contents, or `none` (Go's `nil` pointer) when the contents hold no valid
PEM block. -/
def pemDecode : Bytes → Option (String × Bytes)
  | .pemBlock t b => some (t, b)
  | _ => none

/-- Go `pem.EncodeToMemory` of a `pem.Block`. -/
def pemEncodeToMemory (t : String) (b : Bytes) : Bytes := .pemBlock t b

/-- Go `x509.ParseCertificate` on DER bytes. -/
def parseCertificate : Bytes → Option X509Cert
  | .derCert c => some c
  | _ => none

/-- Go `x509.ParsePKCS1PrivateKey` on DER bytes. -/
def parsePKCS1PrivateKey : Bytes → Option RSAPriv
  | .derRSAKey k => some k
  | _ => none

/-- Go `x509.MarshalPKCS1PrivateKey`. -/
def marshalPKCS1PrivateKey (k : RSAPriv) : Bytes := .derRSAKey k

/-! ## File system and invocation environment -/

abbrev FileMode := Nat

/-- The file system: an association list from path to contents and mode. -/
abbrev FS := List (String × Bytes × FileMode)

def lookupFS : FS → String → Option (Bytes × FileMode)
  | [], _ => none
  | (q, c, m) :: rest, p => if q = p then some (c, m) else lookupFS rest p

/-- Go `ioutil.ReadFile`: the contents, or an error (`none`) when the path
does not resolve to a readable file. -/
def readFileFS (fs : FS) (p : String) : Option Bytes :=
  (lookupFS fs p).map Prod.fst

/-- Go `ioutil.WriteFile`: fails on an unwritable path, else creates the
file or replaces whatever was there, with the given mode. -/
def writeFileFS (fs : FS) (ro : List String) (p : String) (c : Bytes) (m : FileMode) :
    Option FS :=
  if p ∈ ro then none
  else some ((p, c, m) :: fs.filter (fun e => e.1 != p))

/-- The environment of one invocation: the file system, the set of
unwritable paths, the clock trace (entry `i` is what the `(i+1)`-th
`time.Now()` call returns), and the outcome of the randomized
`rsa.GenerateKey` call (`none` models its error return). -/
structure Env where
  fs : FS
  readOnly : List String
  clock : Nat → Int
  genKey : Option RSAPriv

/-- The `certClusterOptions` flag struct. -/
structure CertClusterOptions where
  caCrt : String
  caKey : String
  outBit : Int
  outCom : String
  outOrg : String
  outCrt : String
  outKey : String
deriving DecidableEq

/-- The errors `RunE` and `PreRunE` can return, one constructor per
`fmt.Errorf` site, carrying the argument the source interpolates (the
wrapped lower-level error values are not carried).  `readFileErr` is used
by both file-read failure sites — note both sites interpolate
`certClusterOpt.CA.Crt`. -/
inductive GoError
  | readFileErr (path : String)
  | parseCACertErr
  | parseCAKeyErr
  | certGenErr
  | writeCrtErr (path : String)
  | writeKeyErr (path : String)
  | preconditionErr (msg : String)
deriving DecidableEq

/-- Outcome of one invocation: normal return with no error, an error
return, or a runtime panic (the nil-pointer dereference reachable through
the unchecked `pem.Decode` result). -/
inductive RunResult
  | ok
  | err (e : GoError)
  | panicked
deriving DecidableEq

/-! ## `PreRunE` and `RunE` -/

/-- `certClusterCmd.PreRunE`: the five emptiness checks, in source
order. -/
def preRunE (opt : CertClusterOptions) : Option String :=
  if opt.caCrt.length = 0 then some "Please provide a CA certificate file path."
  else if opt.caKey.length = 0 then some "Please provide a CA private key file path."
  else if opt.outOrg.length = 0 then some "Please provide an organisation name."
  else if opt.outCrt.length = 0 then some "Please provide a certificate file path."
  else if opt.outKey.length = 0 then some "Please provide a private key file path."
  else none

/-- The certificate template (`csr`) literal of `RunE`, with the Go zero
value in every field the source does not set.  The three `time.Now()`
calls evaluate in field order: `NotBefore`, `NotAfter`, `SerialNumber`
read clock entries 0, 1, 2. -/
def mkCsr (opt : CertClusterOptions) (clock : Nat → Int) (dns : List String)
    (ips : List GoIP) : X509Cert :=
  { subject := { commonName := opt.outCom, organization := [opt.outOrg] }
    issuer := { commonName := "", organization := [] }
    basicConstraintsValid := true
    isCA := false
    signatureAlgorithm := .sha512WithRSA
    publicKeyAlgorithm := .ecdsaAlg
    notBefore := clock 0
    notAfter := addDate (clock 1) 10 0 0
    serialNumber := unixNano (clock 2)
    keyUsage := keyUsageCertSign ||| keyUsageDigitalSignature ||| keyUsageKeyAgreement |||
      keyUsageKeyEncipherment ||| keyUsageDataEncipherment ||| keyUsageContentCommitment
    extKeyUsage := [.serverAuth, .clientAuth]
    dnsNames := dns
    ipAddresses := ips
    pubKey := { n := 0, e := 0 }
    signature := 0 }

/-- Everything `RunE` does before the first write, in source order:
panicking where the source dereferences a nil `pem.Decode` result,
failing with the error the source returns, or reaching the write phase
with the issued certificate and the generated key (whose PKCS#1
marshalling is deferred to the write phase, where it is PEM-wrapped). -/
inductive PrepResult
  | panicked
  | failed (e : GoError)
  | ready (pub : X509Cert) (key : RSAPriv)
deriving DecidableEq

def prepare (opt : CertClusterOptions) (args : List String) (env : Env) : PrepResult :=
  match readFileFS env.fs opt.caCrt with
  | none => .failed (.readFileErr opt.caCrt)
  | some caCrtFile =>
    match pemDecode caCrtFile with
    | none => .panicked
    | some caCrtData =>
      match parseCertificate caCrtData.2 with
      | none => .failed .parseCACertErr
      | some caCrt =>
        match readFileFS env.fs opt.caKey with
        | none => .failed (.readFileErr opt.caCrt)
        | some caKeyFile =>
          match pemDecode caKeyFile with
          | none => .panicked
          | some caKeyData =>
            match parsePKCS1PrivateKey caKeyData.2 with
            | none => .failed .parseCAKeyErr
            | some caKey =>
              match env.genKey with
              | none => .failed .certGenErr
              | some key =>
                match createCertificate
                    (mkCsr opt env.clock (classifyHosts args).1 (classifyHosts args).2)
                    caCrt key.pub caKey with
                | none => .failed .certGenErr
                | some pub => .ready pub key

/-- `certClusterCmd.RunE`: the pre-write phase, then the certificate
write, then the key write, threading the file system. -/
def runE (opt : CertClusterOptions) (args : List String) (env : Env) : RunResult × FS :=
  match prepare opt args env with
  | .panicked => (.panicked, env.fs)
  | .failed e => (.err e, env.fs)
  | .ready pub key =>
    match writeFileFS env.fs env.readOnly opt.outCrt
        (pemEncodeToMemory "CERTIFICATE" (.derCert pub)) 0o644 with
    | none => (.err (.writeCrtErr opt.outCrt), env.fs)
    | some fs1 =>
      match writeFileFS fs1 env.readOnly opt.outKey
          (pemEncodeToMemory "RSA PRIVATE KEY" (marshalPKCS1PrivateKey key)) 0o644 with
      | none => (.err (.writeKeyErr opt.outKey), fs1)
      | some fs2 => (.ok, fs2)

/-- The whole subcommand as cobra runs it: `PreRunE`, and `RunE` only when
the preconditions pass. -/
def runCommand (opt : CertClusterOptions) (args : List String) (env : Env) : RunResult × FS :=
  match preRunE opt with
  | some msg => (.err (.preconditionErr msg), env.fs)
  | none => runE opt args env

/-! ## Helper lemmas -/

/-! ## Concrete material for witnesses and counterexamples -/

/-- A small well-formed CA key pair: `n = 257 * 263`, `e * d = 5 * 26829 ≡ 1
mod (256 * 262)`. -/
def caPriv0 : RSAPriv := { p := 257, q := 263, d := 26829, pub := { n := 67591, e := 5 } }

/-- A CA certificate whose embedded public key matches `caPriv0`. -/
def caCert0 : X509Cert :=
  { subject := { commonName := "Example Root CA", organization := ["Example Org"] }
    issuer := { commonName := "Example Root CA", organization := ["Example Org"] }
    basicConstraintsValid := true
    isCA := true
    signatureAlgorithm := .sha512WithRSA
    publicKeyAlgorithm := .unknownPubKeyAlg
    notBefore := 0
    notAfter := 0
    serialNumber := 1
    keyUsage := keyUsageCertSign
    extKeyUsage := []
    dnsNames := []
    ipAddresses := []
    pubKey := caPriv0.pub
    signature := 0 }

/-- A (deliberately small, not validated) generated leaf key. -/
def leafKey0 : RSAPriv := { p := 3, q := 5, d := 3, pub := { n := 15, e := 3 } }

/-- A CA key whose modulus is too small to hold the padded digest, so that
the signing step inside `x509.CreateCertificate` fails. -/
def tinyPriv : RSAPriv := { p := 2, q := 3, d := 1, pub := { n := 6, e := 1 } }

/-- A CA certificate carrying `tinyPriv`'s public key. -/
def tinyCert : X509Cert := { caCert0 with pubKey := tinyPriv.pub }

def optOK : CertClusterOptions :=
  { caCrt := "ca.crt", caKey := "ca.key", outBit := 2048, outCom := "node1"
    outOrg := "Acme", outCrt := "cluster.crt", outKey := "cluster.key" }

def optNoOrg : CertClusterOptions := { optOK with outOrg := "" }

/-- All five required strings set, key size zero (exercises the absence of
a key-size check). -/
def optBit0 : CertClusterOptions := { optOK with outBit := 0 }

def optKeyMissing : CertClusterOptions := { optOK with caKey := "missing.key" }

/-- The CA material on disk. -/
def caFiles : FS :=
  [("ca.crt", .pemBlock "CERTIFICATE" (.derCert caCert0), 420),
   ("ca.key", .pemBlock "RSA PRIVATE KEY" (.derRSAKey caPriv0), 420)]

/-- A fully working environment; both output paths already hold stale
files, so a successful run also exhibits the overwriting behavior. -/
def envOK : Env :=
  { fs := caFiles ++ [("cluster.crt", .raw "stale certificate", 384),
                      ("cluster.key", .raw "stale key", 384)]
    readOnly := []
    clock := fun _ => 1700000000000000000
    genKey := some leafKey0 }

def args0 : List String := ["10.0.0.5", "node1.cluster.local"]

/-- The certificate `envOK`'s run issues. -/
def certOK : X509Cert :=
  match prepare optOK args0 envOK with
  | .ready c _ => c
  | _ => caCert0

/-- Like `envOK`, but the clock advances one nanosecond per `time.Now()`
call. -/
def envTick : Env := { envOK with clock := fun i => 1700000000000000000 + Int.ofNat i }

/-- The certificate `envTick`'s run issues. -/
def certTick : X509Cert :=
  match prepare optOK args0 envTick with
  | .ready c _ => c
  | _ => caCert0

/-- The CA certificate file is readable but holds no PEM block. -/
def envBadPem : Env :=
  { envOK with fs := [("ca.crt", .raw "this is not a PEM file", 420),
                      ("ca.key", .pemBlock "RSA PRIVATE KEY" (.derRSAKey caPriv0), 420)] }

/-- Only the CA certificate is on disk; the key path does not resolve. -/
def envNoKey : Env :=
  { envOK with fs := [("ca.crt", .pemBlock "CERTIFICATE" (.derCert caCert0), 420)] }

/-- No files at all. -/
def envEmpty : Env := { fs := [], readOnly := [], clock := fun _ => 0, genKey := some leafKey0 }

/-- CA material whose key cannot sign the digest (signing failure). -/
def envTinyCA : Env :=
  { envOK with fs := [("ca.crt", .pemBlock "CERTIFICATE" (.derCert tinyCert), 420),
                      ("ca.key", .pemBlock "RSA PRIVATE KEY" (.derRSAKey tinyPriv), 420)] }

/-- Key generation fails. -/
def envNoGen : Env := { envOK with genKey := none }

/-- The output certificate path is unwritable. -/
def envROcrt : Env := { envOK with readOnly := ["cluster.crt"] }

/-- The output key path is unwritable. -/
def envROkey : Env := { envOK with readOnly := ["cluster.key"] }

/-- A template and the certificate issued from it with `caPriv0`. -/
def c2Tmpl : X509Cert := mkCsr optOK (fun _ => 0) ["node1.cluster.local"] [[10, 0, 0, 5]]

def c2Cert : X509Cert :=
  match createCertificate c2Tmpl caCert0 leafKey0.pub caPriv0 with
  | some c => c
  | none => c2Tmpl

/-! ## Claim theorems -/

/-! ## Theorems -/

theorem classifyHosts_foldl (args : List String) (d : List String) (i : List GoIP) :
    args.foldl classifyStep (d, i) = (d ++ dnsOfSpec args, i ++ ipsOfSpec args) := by
  induction args generalizing d i with
  | nil => simp [dnsOfSpec, ipsOfSpec]
  | cons v rest ih =>
    simp only [List.foldl_cons, dnsOfSpec, ipsOfSpec, List.filter_cons, List.filterMap_cons]
    cases h4 : ipTo4 (netParseIP v) with
    | some p =>
      simp only [classifyStep, h4, ih, dnsOfSpec, ipsOfSpec, ipOfHost, Option.isNone_some,
        Bool.false_and, if_neg (by simp : ¬ (false = true)), List.append_assoc,
        List.singleton_append]
    | none =>
      cases h16 : ipTo16 (netParseIP v) with
      | some p =>
        simp only [classifyStep, h4, h16, ih, dnsOfSpec, ipsOfSpec, ipOfHost, Option.isNone_some,
          Option.isNone_none, Bool.true_and, if_neg (by simp : ¬ (false = true)),
          List.append_assoc, List.singleton_append]
      | none =>
        simp [classifyStep, h4, h16, ih, dnsOfSpec, ipsOfSpec, ipOfHost]

/-- C1: for every list of positional host-identifier arguments the
classifier appends each identifier with a valid 4-byte parsed form to the
IP list as that 4-byte value, each remaining identifier with a valid
16-byte parsed form to the IP list as that 16-byte value, and every other
identifier unchanged (no deduplication) to the DNS list, both lists in
input order; the empty input yields two empty lists. -/
theorem c1_classifier_partition (args : List String) :
    classifyHosts args = (dnsOfSpec args, ipsOfSpec args) ∧ classifyHosts [] = ([], []) := by
  refine ⟨?_, rfl⟩
  simpa using classifyHosts_foldl args [] []

theorem powModF_eq (n : Nat) :
    ∀ fuel b e, e < fuel → powModF fuel b e n = b ^ e % n := by
  intro fuel
  induction fuel with
  | zero => intro b e h; exact absurd h (Nat.not_lt_zero e)
  | succ f ih =>
    intro b e he
    by_cases h0 : e = 0
    · subst h0; simp [powModF]
    · have hpos : 0 < e := Nat.pos_of_ne_zero h0
      have hdiv : e / 2 < f := by
        have h1 : e / 2 < e := Nat.div_lt_self hpos (by norm_num)
        omega
      have hrec := ih (b * b % n) (e / 2) hdiv
      have hmod : (b * b % n) ^ (e / 2) % n = (b * b) ^ (e / 2) % n := (Nat.pow_mod _ _ _).symm
      have hsq : (b * b) ^ (e / 2) = b ^ (2 * (e / 2)) := by
        rw [pow_mul, pow_two]
      rcases Nat.mod_two_eq_zero_or_one e with he2 | he2
      · have hee : 2 * (e / 2) = e := by omega
        have hif : ¬ e % 2 = 1 := by omega
        simp only [powModF, if_neg h0, if_neg hif]
        rw [hrec, hmod, hsq, hee]
      · have hee : 2 * (e / 2) + 1 = e := by omega
        simp only [powModF, if_neg h0, if_pos he2]
        rw [hrec, hmod, hsq, Nat.mod_mul_mod, ← pow_succ, hee]

theorem powMod_eq (b e n : Nat) : powMod b e n = b ^ e % n :=
  powModF_eq n (e + 1) b e (Nat.lt_succ_self e)

theorem pow_modEq_prime (p : Nat) (hp : Nat.Prime p) (k m : Nat) (hk : (p - 1) ∣ k) :
    m ^ (k + 1) ≡ m [MOD p] := by
  by_cases hpm : p ∣ m
  · have h0 : m ≡ 0 [MOD p] := (Nat.modEq_zero_iff_dvd).2 hpm
    calc m ^ (k + 1) ≡ 0 ^ (k + 1) [MOD p] := h0.pow _
      _ = 0 := zero_pow (Nat.succ_ne_zero k)
      _ ≡ m [MOD p] := h0.symm
  · have hco : Nat.Coprime m p := ((Nat.Prime.coprime_iff_not_dvd hp).2 hpm).symm
    obtain ⟨t, ht⟩ := hk
    have heul : m ^ (p - 1) ≡ 1 [MOD p] := by
      have h := Nat.ModEq.pow_totient hco
      rwa [Nat.totient_prime hp] at h
    calc m ^ (k + 1) = m * (m ^ (p - 1)) ^ t := by rw [ht]; ring
      _ ≡ m * 1 ^ t [MOD p] := Nat.ModEq.mul_left m (heul.pow t)
      _ = m := by ring

theorem rsa_correct (p q e d m : Nat) (hp : Nat.Prime p) (hq : Nat.Prime q) (hpq : p ≠ q)
    (hed : e * d % ((p - 1) * (q - 1)) = 1) (he : 0 < e) (hd : 0 < d) :
    m ^ (e * d) ≡ m [MOD p * q] := by
  have hφpos : 0 < (p - 1) * (q - 1) := by
    have h2p := hp.two_le
    have h2q := hq.two_le
    exact Nat.mul_pos (by omega) (by omega)
  have hφ2 : 1 < (p - 1) * (q - 1) := by
    by_contra h
    have h1 : (p - 1) * (q - 1) = 1 := by omega
    rw [h1, Nat.mod_one] at hed
    exact absurd hed (by norm_num)
  have hedpos : 1 ≤ e * d := Nat.mul_pos he hd
  have hphi : e * d ≡ 1 [MOD (p - 1) * (q - 1)] := by
    show e * d % _ = 1 % _
    rw [hed, Nat.mod_eq_of_lt hφ2]
  have hdvd : ((p - 1) * (q - 1)) ∣ (e * d - 1) :=
    (Nat.modEq_iff_dvd' hedpos).1 hphi.symm
  have hked : e * d = (e * d - 1) + 1 := by omega
  have hps : m ^ (e * d) ≡ m [MOD p] := by
    rw [hked]
    exact pow_modEq_prime p hp _ m (dvd_trans (dvd_mul_right (p - 1) (q - 1)) hdvd)
  have hqs : m ^ (e * d) ≡ m [MOD q] := by
    rw [hked]
    exact pow_modEq_prime q hq _ m (dvd_trans (dvd_mul_left (q - 1) (p - 1)) hdvd)
  exact (Nat.modEq_and_modEq_iff_modEq_mul ((Nat.coprime_primes hp hq).2 hpq)).1 ⟨hps, hqs⟩

/-- Signing then verifying with a well-formed key pair round-trips. -/
theorem rsa_verify_sign (k : RSAPriv) (m : Nat) (hk : RSAKeyValid k) (hm : m < k.pub.n) :
    rsaVerifyPKCS1v15 k.pub m (powMod m k.d k.pub.n) = true := by
  obtain ⟨hp, hq, hpq, hn, he, hd, hed⟩ := hk
  have hnpos : 0 < k.pub.n := by rw [hn]; exact Nat.mul_pos hp.pos hq.pos
  have hcorr : m ^ (k.pub.e * k.d) ≡ m [MOD k.pub.n] := by
    rw [hn]
    exact rsa_correct k.p k.q k.pub.e k.d m hp hq hpq hed he hd
  have hchain : powMod (powMod m k.d k.pub.n) k.pub.e k.pub.n = m := by
    rw [powMod_eq, powMod_eq, ← Nat.pow_mod, ← pow_mul, mul_comm k.d k.pub.e]
    calc m ^ (k.pub.e * k.d) % k.pub.n = m % k.pub.n := hcorr
      _ = m := Nat.mod_eq_of_lt hm
  simp [rsaVerifyPKCS1v15, hchain]

theorem string_length_eq_zero (s : String) : s.length = 0 ↔ s = "" := by
  constructor
  · intro h
    cases s with
    | mk data =>
      cases data with
      | nil => rfl
      | cons c cs => simp [String.length] at h
  · intro h
    subst h
    rfl

theorem lookupFS_filter (fs : FS) (p p' : String) (hne : p' ≠ p) :
    lookupFS (fs.filter (fun e => e.1 != p)) p' = lookupFS fs p' := by
  induction fs with
  | nil => rfl
  | cons e rest ih =>
    obtain ⟨q, c, m⟩ := e
    by_cases hq : q = p
    · subst hq
      have hqp : ¬ q = p' := fun h => hne (h ▸ rfl)
      simp [List.filter_cons, lookupFS, ih, hqp]
    · by_cases hq' : q = p'
      · subst hq'
        simp [List.filter_cons, lookupFS, bne_iff_ne, hq]
      · simp [List.filter_cons, lookupFS, bne_iff_ne, hq, hq', ih]

theorem lookupFS_write_self (fs : FS) (ro : List String) (p : String) (c : Bytes)
    (m : FileMode) (fs2 : FS) (h : writeFileFS fs ro p c m = some fs2) :
    lookupFS fs2 p = some (c, m) := by
  unfold writeFileFS at h
  by_cases hro : p ∈ ro
  · rw [if_pos hro] at h; exact absurd h (by simp)
  · rw [if_neg hro] at h
    have h2 : fs2 = (p, c, m) :: fs.filter (fun e => e.1 != p) := (Option.some.inj h).symm
    rw [h2]
    simp [lookupFS]

theorem lookupFS_write_other (fs : FS) (ro : List String) (p : String) (c : Bytes)
    (m : FileMode) (fs2 : FS) (p' : String) (h : writeFileFS fs ro p c m = some fs2)
    (hne : p' ≠ p) : lookupFS fs2 p' = lookupFS fs p' := by
  unfold writeFileFS at h
  by_cases hro : p ∈ ro
  · rw [if_pos hro] at h; exact absurd h (by simp)
  · rw [if_neg hro] at h
    have h2 : fs2 = (p, c, m) :: fs.filter (fun e => e.1 != p) := (Option.some.inj h).symm
    rw [h2]
    have hpp : ¬ p = p' := fun hx => hne (hx ▸ rfl)
    simp only [lookupFS, if_neg hpp]
    exact lookupFS_filter fs p p' hne

theorem createCertificate_some (tmpl parent : X509Cert) (pub : RSAPub) (priv : RSAPriv)
    (out : X509Cert) (h : createCertificate tmpl parent pub priv = some out) :
    ∃ sig, out = { issuedCert tmpl parent pub with signature := sig } := by
  unfold createCertificate at h
  cases hs : rsaSignPKCS1v15 priv (tbsDigest (issuedCert tmpl parent pub)) with
  | none => simp only [hs] at h; exact Option.noConfusion h
  | some sig =>
    simp only [hs] at h
    exact ⟨sig, (Option.some.inj h).symm⟩

theorem prepare_ready_fields (opt : CertClusterOptions) (args : List String) (env : Env)
    (pub : X509Cert) (key : RSAPriv) (h : prepare opt args env = .ready pub key) :
    ∃ caSubj sig,
      pub = { mkCsr opt env.clock (classifyHosts args).1 (classifyHosts args).2 with
              issuer := caSubj, pubKey := key.pub, signature := sig } := by
  unfold prepare at h
  cases h1 : readFileFS env.fs opt.caCrt with
  | none => simp only [h1] at h; exact PrepResult.noConfusion h
  | some caCrtFile =>
    simp only [h1] at h
    cases h2 : pemDecode caCrtFile with
    | none => simp only [h2] at h; exact PrepResult.noConfusion h
    | some caCrtData =>
      simp only [h2] at h
      cases h3 : parseCertificate caCrtData.2 with
      | none => simp only [h3] at h; exact PrepResult.noConfusion h
      | some caCrt =>
        simp only [h3] at h
        cases h4 : readFileFS env.fs opt.caKey with
        | none => simp only [h4] at h; exact PrepResult.noConfusion h
        | some caKeyFile =>
          simp only [h4] at h
          cases h5 : pemDecode caKeyFile with
          | none => simp only [h5] at h; exact PrepResult.noConfusion h
          | some caKeyData =>
            simp only [h5] at h
            cases h6 : parsePKCS1PrivateKey caKeyData.2 with
            | none => simp only [h6] at h; exact PrepResult.noConfusion h
            | some caKey =>
              simp only [h6] at h
              cases h7 : env.genKey with
              | none => simp only [h7] at h; exact PrepResult.noConfusion h
              | some key0 =>
                simp only [h7] at h
                cases h8 : createCertificate
                    (mkCsr opt env.clock (classifyHosts args).1 (classifyHosts args).2)
                    caCrt key0.pub caKey with
                | none => simp only [h8] at h; exact PrepResult.noConfusion h
                | some out =>
                  simp only [h8] at h
                  injection h with hout hkey
                  obtain ⟨sig, hsig⟩ := createCertificate_some _ _ _ _ _ h8
                  subst hout
                  subst hkey
                  refine ⟨caCrt.subject, sig, ?_⟩
                  rw [hsig]
                  rfl

theorem runE_ok_shape (opt : CertClusterOptions) (args : List String) (env : Env)
    (h : (runE opt args env).1 = .ok) :
    ∃ pub key fs1,
      prepare opt args env = .ready pub key ∧
      writeFileFS env.fs env.readOnly opt.outCrt
        (pemEncodeToMemory "CERTIFICATE" (.derCert pub)) 0o644 = some fs1 ∧
      writeFileFS fs1 env.readOnly opt.outKey
        (pemEncodeToMemory "RSA PRIVATE KEY" (marshalPKCS1PrivateKey key)) 0o644 =
        some ((runE opt args env).2) := by
  unfold runE at h
  cases hp : prepare opt args env with
  | panicked => simp only [hp] at h; exact RunResult.noConfusion h
  | failed e => simp only [hp] at h; exact RunResult.noConfusion h
  | ready pub key =>
    simp only [hp] at h
    cases hw1 : writeFileFS env.fs env.readOnly opt.outCrt
        (pemEncodeToMemory "CERTIFICATE" (.derCert pub)) 0o644 with
    | none => simp only [hw1] at h; exact RunResult.noConfusion h
    | some fs1 =>
      simp only [hw1] at h
      cases hw2 : writeFileFS fs1 env.readOnly opt.outKey
          (pemEncodeToMemory "RSA PRIVATE KEY" (marshalPKCS1PrivateKey key)) 0o644 with
      | none => simp only [hw2] at h; exact RunResult.noConfusion h
      | some fs2 =>
        have hrun : runE opt args env = (.ok, fs2) := by
          unfold runE
          simp only [hp, hw1, hw2]
        exact ⟨pub, key, fs1, rfl, hw1, by rw [hrun]; exact hw2⟩

/-- C2: for valid CA material (a CA certificate and its matching
well-formed RSA private key), whenever `x509.CreateCertificate` issues a
certificate, the issued certificate's issuer equals the CA certificate's
subject and signature verification of the issued certificate against the
CA's public key succeeds. -/
theorem c2_issuer_and_signature (tmpl parent : X509Cert) (pub : RSAPub) (k : RSAPriv)
    (out : X509Cert) (hk : RSAKeyValid k) (hmatch : parent.pubKey = k.pub)
    (h : createCertificate tmpl parent pub k = some out) :
    out.issuer = parent.subject ∧ checkSignature parent out = true := by
  unfold createCertificate at h
  cases hs : rsaSignPKCS1v15 k (tbsDigest (issuedCert tmpl parent pub)) with
  | none => simp only [hs] at h; exact Option.noConfusion h
  | some sig =>
    simp only [hs] at h
    have hout : out = { issuedCert tmpl parent pub with signature := sig } :=
      (Option.some.inj h).symm
    unfold rsaSignPKCS1v15 at hs
    by_cases hm : k.pub.n ≤ tbsDigest (issuedCert tmpl parent pub)
    · rw [if_pos hm] at hs; exact Option.noConfusion hs
    · rw [if_neg hm] at hs
      have hsig : sig = powMod (tbsDigest (issuedCert tmpl parent pub)) k.d k.pub.n :=
        (Option.some.inj hs).symm
      constructor
      · rw [hout]; rfl
      · unfold checkSignature
        rw [hout, hmatch]
        have hdig : tbsDigest { issuedCert tmpl parent pub with signature := sig } =
            tbsDigest (issuedCert tmpl parent pub) := rfl
        rw [hdig, hsig]
        exact rsa_verify_sign k (tbsDigest (issuedCert tmpl parent pub)) hk
          (Nat.lt_of_not_le hm)

theorem c2_witness :
    RSAKeyValid caPriv0 ∧
      createCertificate c2Tmpl caCert0 leafKey0.pub caPriv0 = some c2Cert ∧
      c2Cert.issuer = caCert0.subject ∧ checkSignature caCert0 c2Cert = true := by
  have hk : RSAKeyValid caPriv0 := by decide
  have h : createCertificate c2Tmpl caCert0 leafKey0.pub caPriv0 = some c2Cert := by decide
  have hc := c2_issuer_and_signature c2Tmpl caCert0 leafKey0.pub caPriv0 c2Cert hk
    (by decide) h
  exact ⟨hk, h, hc.1, hc.2⟩

/-- C3: with a readable CA certificate file that contains no valid PEM
block, the code does not surface a format error: it dereferences the nil
`pem.Decode` result and panics.  The panic does occur before any key
generation or file write, so the file system is unchanged. -/
theorem c3_no_pem_block_panics :
    runCommand optOK [] envBadPem = (.panicked, envBadPem.fs) := by decide

/-- C4: `PreRunE` fails, before any file I/O or cryptographic work, if and
only if at least one of the CA certificate path, CA key path, organization
name, output certificate path or output key path is empty; the key size
is never examined, and on failure the file system is untouched. -/
theorem c4_preconditions (opt : CertClusterOptions) :
    ((preRunE opt).isSome ↔
      (opt.caCrt = "" ∨ opt.caKey = "" ∨ opt.outOrg = "" ∨ opt.outCrt = "" ∨
        opt.outKey = "")) ∧
    (∀ args env, (preRunE opt).isSome →
      ∃ msg, runCommand opt args env = (.err (.preconditionErr msg), env.fs)) := by
  constructor
  · by_cases h1 : opt.caCrt.length = 0 <;> by_cases h2 : opt.caKey.length = 0 <;>
      by_cases h3 : opt.outOrg.length = 0 <;> by_cases h4 : opt.outCrt.length = 0 <;>
      by_cases h5 : opt.outKey.length = 0 <;>
      simp [preRunE, h1, h2, h3, h4, h5, ← string_length_eq_zero]
  · intro args env hsome
    obtain ⟨msg, hmsg⟩ := Option.isSome_iff_exists.1 hsome
    refine ⟨msg, ?_⟩
    unfold runCommand
    simp only [hmsg]

theorem c4_witness :
    (∃ msg, runCommand optNoOrg [] envEmpty = (.err (.preconditionErr msg), envEmpty.fs)) ∧
      (preRunE optBit0).isSome = false := by
  constructor
  · exact (c4_preconditions optNoOrg).2 [] envEmpty (by decide)
  · refine Bool.eq_false_iff.mpr (fun hs => ?_)
    exact (by decide : ¬ (optBit0.caCrt = "" ∨ optBit0.caKey = "" ∨ optBit0.outOrg = "" ∨
      optBit0.outCrt = "" ∨ optBit0.outKey = "")) ((c4_preconditions optBit0).1.mp hs)

/-- C7: when reading the CA private key file fails (the CA certificate
having been read and parsed), the returned I/O error interpolates the CA
certificate path, not the CA key path that actually failed. -/
theorem c7_key_read_error_names_cert_path :
    runCommand optKeyMissing [] envNoKey = (.err (.readFileErr "ca.crt"), envNoKey.fs) ∧
      readFileFS envNoKey.fs "ca.crt" ≠ none ∧
      optKeyMissing.caKey = "missing.key" ∧
      GoError.readFileErr "ca.crt" ≠ GoError.readFileErr "missing.key" := by decide

/-- C10: every failure of the pre-write phase (unreadable or unparsable CA
certificate, unreadable or unparsable CA key, key-generation failure,
signing failure) makes `RunE` return that error with the file system
unchanged; such an error is never one of the write errors. -/
theorem c10_prewrite_failure_no_output (opt : CertClusterOptions) (args : List String)
    (env : Env) (e : GoError) (h : prepare opt args env = .failed e) :
    runE opt args env = (.err e, env.fs) ∧
      (∀ p, e ≠ .writeCrtErr p) ∧ (∀ p, e ≠ .writeKeyErr p) ∧
      (∀ m, e ≠ .preconditionErr m) := by
  refine ⟨by unfold runE; simp only [h], ?_⟩
  unfold prepare at h
  repeat' split at h
  all_goals first
    | exact PrepResult.noConfusion h
    | (injection h with he; subst he; refine ⟨?_, ?_, ?_⟩ <;> intro x <;> simp)

theorem c10_witness :
    runE optOK [] envEmpty = (.err (.readFileErr "ca.crt"), envEmpty.fs) ∧
      runE optOK args0 envTinyCA = (.err .certGenErr, envTinyCA.fs) ∧
      runE optOK args0 envNoGen = (.err .certGenErr, envNoGen.fs) :=
  ⟨(c10_prewrite_failure_no_output optOK [] envEmpty (.readFileErr "ca.crt") (by decide)).1,
   (c10_prewrite_failure_no_output optOK args0 envTinyCA .certGenErr (by decide)).1,
   (c10_prewrite_failure_no_output optOK args0 envNoGen .certGenErr (by decide)).1⟩

/-- C5 (amended): for every successful issuance, `NotBefore` equals the
first `time.Now()` reading and `NotAfter` equals the second, separate
`time.Now()` reading advanced by 10 calendar years; whenever the two
readings coincide, `NotAfter` equals `NotBefore` plus exactly 10 calendar
years. -/
theorem c5_validity_window (opt : CertClusterOptions) (args : List String) (env : Env)
    (h : (runE opt args env).1 = .ok) :
    ∃ pub key, prepare opt args env = .ready pub key ∧
      pub.notBefore = env.clock 0 ∧
      pub.notAfter = addDate (env.clock 1) 10 0 0 ∧
      (env.clock 0 = env.clock 1 → pub.notAfter = addDate pub.notBefore 10 0 0) := by
  obtain ⟨pub, key, fs1, hp, _, _⟩ := runE_ok_shape opt args env h
  obtain ⟨caSubj, sig, hfields⟩ := prepare_ready_fields opt args env pub key hp
  subst hfields
  refine ⟨_, _, hp, rfl, rfl, ?_⟩
  intro hcl
  show addDate (env.clock 1) 10 0 0 = addDate (env.clock 0) 10 0 0
  rw [hcl]

/-- C5 (counterexample to the claim as stated): a successful issuance in
which the clock advances one nanosecond between the `NotBefore` and
`NotAfter` calls of `time.Now()`, making `NotAfter` different from
`NotBefore` plus 10 calendar years. -/
theorem c5_counterexample :
    (runE optOK args0 envTick).1 = .ok ∧
      prepare optOK args0 envTick = .ready certTick leafKey0 ∧
      certTick.notBefore = envTick.clock 0 ∧
      certTick.notAfter ≠ addDate certTick.notBefore 10 0 0 := by decide

theorem c5_witness :
    (runE optOK args0 envOK).1 = .ok ∧
      (∃ pub key, prepare optOK args0 envOK = .ready pub key ∧
        pub.notBefore = envOK.clock 0 ∧
        pub.notAfter = addDate (envOK.clock 1) 10 0 0 ∧
        (envOK.clock 0 = envOK.clock 1 → pub.notAfter = addDate pub.notBefore 10 0 0)) :=
  ⟨by decide, c5_validity_window optOK args0 envOK (by decide)⟩

/-- C6: every issued certificate is built from a template with Subject
{CommonName = --out-com, Organization = [--out-org]},
BasicConstraintsValid marking a non-CA end entity, SHA-512-with-RSA
signature algorithm, serial number equal to the `time.Now()` reading in
nanoseconds since the epoch, key usage the union of certificate signing,
digital signature, key agreement, key encipherment, data encipherment and
non-repudiation (content commitment), extended key usage {server auth,
client auth}, and SANs equal to the classifier's DNS and IP lists. -/
theorem c6_template_fields (opt : CertClusterOptions) (args : List String) (env : Env)
    (h : (runE opt args env).1 = .ok) :
    ∃ pub key, prepare opt args env = .ready pub key ∧
      pub.subject = { commonName := opt.outCom, organization := [opt.outOrg] } ∧
      pub.basicConstraintsValid = true ∧
      pub.isCA = false ∧
      pub.signatureAlgorithm = .sha512WithRSA ∧
      pub.serialNumber = unixNano (env.clock 2) ∧
      pub.keyUsage = (keyUsageCertSign ||| keyUsageDigitalSignature ||| keyUsageKeyAgreement |||
        keyUsageKeyEncipherment ||| keyUsageDataEncipherment ||| keyUsageContentCommitment) ∧
      pub.extKeyUsage = [.serverAuth, .clientAuth] ∧
      pub.dnsNames = (classifyHosts args).1 ∧
      pub.ipAddresses = (classifyHosts args).2 := by
  obtain ⟨pub, key, fs1, hp, _, _⟩ := runE_ok_shape opt args env h
  obtain ⟨caSubj, sig, hfields⟩ := prepare_ready_fields opt args env pub key hp
  subst hfields
  exact ⟨_, _, hp, rfl, rfl, rfl, rfl, rfl, rfl, rfl, rfl, rfl⟩

theorem c6_witness :
    (runE optOK args0 envOK).1 = .ok ∧
      (∃ pub key, prepare optOK args0 envOK = .ready pub key ∧
        pub.subject = { commonName := optOK.outCom, organization := [optOK.outOrg] } ∧
        pub.basicConstraintsValid = true ∧
        pub.isCA = false ∧
        pub.signatureAlgorithm = .sha512WithRSA ∧
        pub.serialNumber = unixNano (envOK.clock 2) ∧
        pub.keyUsage = (keyUsageCertSign ||| keyUsageDigitalSignature ||| keyUsageKeyAgreement |||
          keyUsageKeyEncipherment ||| keyUsageDataEncipherment ||| keyUsageContentCommitment) ∧
        pub.extKeyUsage = [.serverAuth, .clientAuth] ∧
        pub.dnsNames = (classifyHosts args0).1 ∧
        pub.ipAddresses = (classifyHosts args0).2) :=
  ⟨by decide, c6_template_fields optOK args0 envOK (by decide)⟩

/-- C8: the certificate file is always written before the key file: if the
certificate write fails the run errors naming the certificate path and the
file system (in particular the key path) is unchanged; if the key write
fails after a successful certificate write the run errors naming the key
path while the certificate is left on disk and the key path is untouched;
and whenever the key path's contents changed, the run succeeded with the
certificate also written. -/
theorem c8_write_order (opt : CertClusterOptions) (args : List String) (env : Env)
    (hne : opt.outCrt ≠ opt.outKey) :
    (∀ pub key, prepare opt args env = .ready pub key →
      ((opt.outCrt ∈ env.readOnly →
        runE opt args env = (.err (.writeCrtErr opt.outCrt), env.fs)) ∧
       (opt.outCrt ∉ env.readOnly → opt.outKey ∈ env.readOnly →
        (runE opt args env).1 = .err (.writeKeyErr opt.outKey) ∧
        lookupFS (runE opt args env).2 opt.outCrt =
          some (pemEncodeToMemory "CERTIFICATE" (.derCert pub), 0o644) ∧
        lookupFS (runE opt args env).2 opt.outKey = lookupFS env.fs opt.outKey))) ∧
    (lookupFS (runE opt args env).2 opt.outKey ≠ lookupFS env.fs opt.outKey →
      (runE opt args env).1 = .ok ∧
      ∃ pub, lookupFS (runE opt args env).2 opt.outCrt =
        some (pemEncodeToMemory "CERTIFICATE" (.derCert pub), 0o644)) := by
  constructor
  · intro pub key hp
    constructor
    · intro hro
      have hw1 : writeFileFS env.fs env.readOnly opt.outCrt
          (pemEncodeToMemory "CERTIFICATE" (.derCert pub)) 0o644 = none := by
        unfold writeFileFS
        rw [if_pos hro]
      unfold runE
      simp only [hp, hw1]
    · intro hro1 hro2
      have hw1 : writeFileFS env.fs env.readOnly opt.outCrt
          (pemEncodeToMemory "CERTIFICATE" (.derCert pub)) 0o644 =
          some ((opt.outCrt, pemEncodeToMemory "CERTIFICATE" (.derCert pub), 0o644) ::
            env.fs.filter (fun e => e.1 != opt.outCrt)) := by
        unfold writeFileFS
        rw [if_neg hro1]
      have hw2 : writeFileFS
          ((opt.outCrt, pemEncodeToMemory "CERTIFICATE" (.derCert pub), 0o644) ::
            env.fs.filter (fun e => e.1 != opt.outCrt)) env.readOnly opt.outKey
          (pemEncodeToMemory "RSA PRIVATE KEY" (marshalPKCS1PrivateKey key)) 0o644 = none := by
        unfold writeFileFS
        rw [if_pos hro2]
      have hrun : runE opt args env = (.err (.writeKeyErr opt.outKey),
          (opt.outCrt, pemEncodeToMemory "CERTIFICATE" (.derCert pub), 0o644) ::
            env.fs.filter (fun e => e.1 != opt.outCrt)) := by
        unfold runE
        simp only [hp, hw1, hw2]
      refine ⟨by rw [hrun], ?_, ?_⟩
      · rw [hrun]
        exact lookupFS_write_self _ _ _ _ _ _ hw1
      · rw [hrun]
        exact lookupFS_write_other _ _ _ _ _ _ _ hw1 (Ne.symm hne)
  · intro hkey
    cases hp : prepare opt args env with
    | panicked =>
      exfalso
      apply hkey
      have hrun : runE opt args env = (.panicked, env.fs) := by
        unfold runE; simp only [hp]
      rw [hrun]
    | failed e =>
      exfalso
      apply hkey
      have hrun : runE opt args env = (.err e, env.fs) := by
        unfold runE; simp only [hp]
      rw [hrun]
    | ready pub key =>
      cases hw1 : writeFileFS env.fs env.readOnly opt.outCrt
          (pemEncodeToMemory "CERTIFICATE" (.derCert pub)) 0o644 with
      | none =>
        exfalso
        apply hkey
        have hrun : runE opt args env = (.err (.writeCrtErr opt.outCrt), env.fs) := by
          unfold runE; simp only [hp, hw1]
        rw [hrun]
      | some fs1 =>
        cases hw2 : writeFileFS fs1 env.readOnly opt.outKey
            (pemEncodeToMemory "RSA PRIVATE KEY" (marshalPKCS1PrivateKey key)) 0o644 with
        | none =>
          exfalso
          apply hkey
          have hrun : runE opt args env = (.err (.writeKeyErr opt.outKey), fs1) := by
            unfold runE; simp only [hp, hw1, hw2]
          rw [hrun]
          exact lookupFS_write_other _ _ _ _ _ _ _ hw1 (Ne.symm hne)
        | some fs2 =>
          have hrun : runE opt args env = (.ok, fs2) := by
            unfold runE; simp only [hp, hw1, hw2]
          refine ⟨by rw [hrun], pub, ?_⟩
          rw [hrun]
          have hx : lookupFS fs2 opt.outCrt = lookupFS fs1 opt.outCrt :=
            lookupFS_write_other _ _ _ _ _ _ _ hw2 hne
          rw [hx]
          exact lookupFS_write_self _ _ _ _ _ _ hw1

theorem c8_witness :
    runE optOK args0 envROcrt = (.err (.writeCrtErr "cluster.crt"), envROcrt.fs) ∧
      (runE optOK args0 envROkey).1 = .err (.writeKeyErr "cluster.key") ∧
      lookupFS (runE optOK args0 envROkey).2 "cluster.crt" =
        some (pemEncodeToMemory "CERTIFICATE" (.derCert certOK), 420) ∧
      lookupFS (runE optOK args0 envROkey).2 "cluster.key" =
        lookupFS envROkey.fs "cluster.key" := by
  have h1 := ((c8_write_order optOK args0 envROcrt (by decide)).1 certOK leafKey0
    (by decide)).1 (by decide)
  have h2 := ((c8_write_order optOK args0 envROkey (by decide)).1 certOK leafKey0
    (by decide)).2 (by decide) (by decide)
  exact ⟨h1, h2.1, h2.2.1, h2.2.2⟩

/-- C9: every successful issuance leaves, at the output certificate path,
the signed certificate as a PEM block of type CERTIFICATE, and at the
output key path the new key's PKCS#1 DER wrapped in a PEM block of type
RSA PRIVATE KEY, both with file mode 0644, whatever the paths held
before. -/
theorem c9_output_encoding (opt : CertClusterOptions) (args : List String) (env : Env)
    (hne : opt.outCrt ≠ opt.outKey) (h : (runE opt args env).1 = .ok) :
    ∃ pub key, prepare opt args env = .ready pub key ∧
      lookupFS (runE opt args env).2 opt.outCrt =
        some (pemEncodeToMemory "CERTIFICATE" (Bytes.derCert pub), 0o644) ∧
      lookupFS (runE opt args env).2 opt.outKey =
        some (pemEncodeToMemory "RSA PRIVATE KEY" (marshalPKCS1PrivateKey key), 0o644) := by
  obtain ⟨pub, key, fs1, hp, hw1, hw2⟩ := runE_ok_shape opt args env h
  refine ⟨pub, key, hp, ?_, ?_⟩
  · have hx := lookupFS_write_other fs1 env.readOnly opt.outKey
      (pemEncodeToMemory "RSA PRIVATE KEY" (marshalPKCS1PrivateKey key)) 0o644
      ((runE opt args env).2) opt.outCrt hw2 hne
    rw [hx]
    exact lookupFS_write_self _ _ _ _ _ _ hw1
  · exact lookupFS_write_self _ _ _ _ _ _ hw2

theorem c9_witness :
    (runE optOK args0 envOK).1 = .ok ∧
      lookupFS envOK.fs "cluster.crt" = some (.raw "stale certificate", 384) ∧
      (∃ pub key, prepare optOK args0 envOK = .ready pub key ∧
        lookupFS (runE optOK args0 envOK).2 "cluster.crt" =
          some (pemEncodeToMemory "CERTIFICATE" (Bytes.derCert pub), 0o644) ∧
        lookupFS (runE optOK args0 envOK).2 "cluster.key" =
          some (pemEncodeToMemory "RSA PRIVATE KEY" (marshalPKCS1PrivateKey key), 0o644)) :=
  ⟨by decide, by decide, c9_output_encoding optOK args0 envOK (by decide) (by decide)⟩

